import Mathlib

/-!
Verification of the items service in `src/main.py` (a FastAPI tutorial app).

The development shallowly embeds the program:
* the pydantic `Item` model and its field constraints become a record
  validation function collecting field errors (pydantic reports all invalid
  fields together; a field validator such as the `admin` name check runs only
  after the field's own structural constraints pass);
* the module-level dict `items_db` becomes an association list with Python
  dict semantics (insert overwrites an existing key, else appends; lookup
  finds the unique binding);
* each route handler becomes a pure function from its inputs and the store
  to its response and the resulting store; an `HTTPException` becomes the
  `Except.error` case carrying status code and detail;
* Python floats used for `price` and `tax` are modelled as rationals;
  `str.lower`, `str.title` and the regex `code-` followed by three digits
  are modelled character-wise over ASCII, matching Python on ASCII input.
-/

namespace FastapiLearn

/-- Does `pat` occur at the head of `l`? (helper for substring search). -/
def startsList (pat l : List Char) : Bool :=
  match pat, l with
  | [], _ => true
  | _ :: _, [] => false
  | p :: ps, c :: cs => p == c && startsList ps cs

/-- Does `pat` occur contiguously anywhere in `l`? -/
def containsSeq (pat : List Char) : List Char → Bool
  | [] => pat.isEmpty
  | c :: cs => startsList pat (c :: cs) || containsSeq pat cs

/-- Python `str.lower()` (ASCII): lowercase every character. -/
def pyLower (s : String) : String :=
  String.mk (s.data.map Char.toLower)

/-- Python `"admin" in v.lower()` from the `name_must_not_contain_admin`
validator: case-insensitive substring test. -/
def containsAdmin (v : String) : Bool :=
  containsSeq "admin".data (pyLower v).data

/-- One step of Python `str.title()`: an alphabetic character is uppercased
when the previous character is not alphabetic and lowercased otherwise;
non-alphabetic characters pass through. -/
def pyTitleAux : Bool → List Char → List Char
  | _, [] => []
  | prevAlpha, c :: cs =>
    let c' := if c.isAlpha then (if prevAlpha then c.toLower else c.toUpper) else c
    c' :: pyTitleAux c.isAlpha cs

/-- Python `str.title()` (ASCII), used by the validator's `return v.title()`. -/
def pyTitle (s : String) : String :=
  String.mk (pyTitleAux false s.data)

/-- The regex `code-` followed by exactly three digits and nothing else,
from `Field(pattern="^code-\d\x7b3\x7d$")` on `Item.code`. -/
def matchesCodePattern (s : String) : Bool :=
  startsList "code-".data s.data && s.length == 8 && (s.data.drop 5).all Char.isDigit

/-- One constraint violation reported by `Item` validation, one constructor
per declared constraint in `src/main.py`. `nameContainsAdmin` is the
semantic error raised by the custom `name_must_not_contain_admin`
validator; the others are the structural `Field` constraints. -/
inductive FieldError where
  | nameTooShort
  | nameTooLong
  | nameContainsAdmin
  | descriptionTooLong
  | priceNotPositive
  | priceTooLarge
  | taxNotPositive
  | codePatternMismatch
  | tagsTooMany
deriving DecidableEq, Repr

/-- The raw field values submitted for `Item` validation (the request body
before pydantic runs). -/
structure RawItem where
  name : String
  description : Option String := none
  price : ℚ
  tax : Option ℚ := none
  code : Option String := none
  tags : List String := []
deriving DecidableEq, Repr

/-- A validated `Item` (the pydantic model instance after validation;
`name` already carries the title-case normalization). -/
structure Item where
  name : String
  description : Option String
  price : ℚ
  tax : Option ℚ
  code : Option String
  tags : List String
deriving DecidableEq, Repr

/-- Errors for `name`: `min_length=3`, `max_length=50`, then (only when those
pass) the custom validator rejecting names containing "admin". -/
def nameErrors (v : String) : List FieldError :=
  if v.length < 3 then [.nameTooShort]
  else if 50 < v.length then [.nameTooLong]
  else if containsAdmin v then [.nameContainsAdmin]
  else []

/-- Errors for `description`: optional, `max_length=300`. -/
def descriptionErrors : Option String → List FieldError
  | none => []
  | some d => if 300 < d.length then [.descriptionTooLong] else []

/-- Errors for `price`: `gt=0`, `le=100000`. -/
def priceErrors (p : ℚ) : List FieldError :=
  if p ≤ 0 then [.priceNotPositive]
  else if 100000 < p then [.priceTooLarge]
  else []

/-- Errors for `tax`: optional, `gt=0`. -/
def taxErrors : Option ℚ → List FieldError
  | none => []
  | some t => if t ≤ 0 then [.taxNotPositive] else []

/-- Errors for `code`: optional, must match the `code-` three-digit pattern. -/
def codeErrors : Option String → List FieldError
  | none => []
  | some c => if matchesCodePattern c then [] else [.codePatternMismatch]

/-- Errors for `tags`: `max_length=5` entries. -/
def tagsErrors (ts : List String) : List FieldError :=
  if 5 < ts.length then [.tagsTooMany] else []

/-- The field errors of every field other than `name`, in declaration order. -/
def otherFieldErrors (r : RawItem) : List FieldError :=
  descriptionErrors r.description ++ priceErrors r.price ++ taxErrors r.tax
    ++ codeErrors r.code ++ tagsErrors r.tags

/-- Pydantic validation of the `Item` model: every field is checked
independently and all violations are reported together; construction
succeeds only when no field has an error, and then `name` is the
validator's normalized (title-cased) value. -/
def validateItem (r : RawItem) : Except (List FieldError) Item :=
  let errs := nameErrors r.name ++ otherFieldErrors r
  if errs.isEmpty then
    .ok ⟨pyTitle r.name, r.description, r.price, r.tax, r.code, r.tags⟩
  else
    .error errs

/-! ## Python dict semantics -/

/-- Lookup in a Python dict modelled as an association list (keys unique by
construction): `d[k]` when present. -/
def dictLookup {κ α : Type} [DecidableEq κ] : List (κ × α) → κ → Option α
  | [], _ => none
  | (k', v') :: rest, k => if k' = k then some v' else dictLookup rest k

/-- Python dict assignment `d[k] = v`: overwrite the binding when the key is
present, otherwise append it (insertion order preserved). -/
def dictInsert {κ α : Type} [DecidableEq κ] : List (κ × α) → κ → α → List (κ × α)
  | [], k, v => [(k, v)]
  | (k', v') :: rest, k, v =>
    if k' = k then (k, v) :: rest else (k', v') :: dictInsert rest k v

/-! ## The item store and route handlers -/

/-- The module-level `items_db` dict: integer ids mapped to the stored item
data (`item.model_dump()` keeps exactly the validated fields). -/
abbrev Store : Type := List (Int × Item)

/-- Python `len(items_db)`. -/
def Store.size (db : Store) : Nat :=
  List.length db

/-- An `HTTPException(status_code=..., detail=...)`. -/
structure HTTPError where
  status_code : Nat
  detail : String
deriving DecidableEq, Repr

/-- The JSON object `\x7b"item_id": item_id, **item.model_dump()\x7d` returned
by the get, create and update handlers. -/
structure ItemRecord where
  item_id : Int
  name : String
  description : Option String
  price : ℚ
  tax : Option ℚ
  code : Option String
  tags : List String
deriving DecidableEq, Repr

/-- Merge an id with an item's dumped fields. -/
def mkRecord (item_id : Int) (it : Item) : ItemRecord :=
  ⟨item_id, it.name, it.description, it.price, it.tax, it.code, it.tags⟩

/-- Python truthiness of an optional string (`if q:`): `None` and the empty
string are falsy. -/
def pyTruthyStr : Option String → Bool
  | none => false
  | some s => !s.isEmpty

/-- Handler for `GET /items/\x7bitem_id\x7d`: 404 when the id is absent from
`items_db`, otherwise the stored fields merged with the id. The handler does
not assign to `items_db`, so it returns the store unchanged. -/
def get_item (item_id : Int) (db : Store) : Except HTTPError ItemRecord × Store :=
  match dictLookup db item_id with
  | none => (.error ⟨404, "Item not found"⟩, db)
  | some data => (.ok (mkRecord item_id data), db)

/-- Handler for `POST /items`: `item_id = len(items_db) + 1`, insert the
dumped item, return the id merged with the fields. -/
def create_item (item : Item) (db : Store) : ItemRecord × Store :=
  let item_id : Int := (Store.size db : Int) + 1
  let db' := dictInsert db item_id item
  (mkRecord item_id item, db')

/-- The shape of the `PUT /items/\x7bitem_id\x7d` response: the id merged with
the incoming fields, plus a `query_param` key only when `q` is truthy. -/
structure UpdateResult where
  record : ItemRecord
  query_param : Option String
deriving DecidableEq, Repr

/-- Handler for `PUT /items/\x7bitem_id\x7d`: builds the response from the
path id and the request body; it never reads or writes `items_db`, so the
store passes through unchanged. -/
def update_item (item_id : Int) (item : Item) (q : Option String) (db : Store) :
    Except HTTPError UpdateResult × Store :=
  let result : UpdateResult :=
    { record := mkRecord item_id item
      query_param := if pyTruthyStr q then q else none }
  (.ok result, db)

/-- A handler response that is just a message object. -/
structure MessageResult where
  message : String
deriving DecidableEq, Repr

/-- Handler for `DELETE /items/\x7bitem_id\x7d`: unconditionally returns the
confirmation message; it never touches `items_db`. -/
def delete_item (item_id : Int) (db : Store) : Except HTTPError MessageResult × Store :=
  (.ok ⟨"Item " ++ toString item_id ++ " deleted successfully"⟩, db)

/-- Run `create_item` on each item of a list in order, front first,
collecting the returned records (the sequential POST /items scenario). -/
def createSeq : List Item → Store → List ItemRecord × Store
  | [], db => ([], db)
  | it :: rest, db =>
    let step := create_item it db
    let steps := createSeq rest step.2
    (step.1 :: steps.1, steps.2)

/-- The store contents produced by creating `items` when `m` entries with
keys `1..m` are already present: keys count on from `m + 1`. -/
def extStore (m : Nat) : List Item → Store
  | [] => []
  | it :: rest => ((m : Int) + 1, it) :: extStore (m + 1) rest

/-- The records returned by creating `items` onto a store of size `m`. -/
def recsFrom (m : Nat) : List Item → List ItemRecord
  | [] => []
  | it :: rest => mkRecord ((m : Int) + 1) it :: recsFrom (m + 1) rest

/-! ## Optional-query endpoint -/

/-- An element of the fixed list returned by `GET /items-optional`. -/
structure ItemIdEntry where
  item_id : Int
deriving DecidableEq, Repr

/-- The `GET /items-optional` response: the fixed items list, and the echoed
query under the `q` key (`none` models the key being absent). -/
structure ItemsOptionalResult where
  items : List ItemIdEntry
  q : Option String
deriving DecidableEq, Repr

/-- Handler for `GET /items-optional`: builds the fixed two-item list, then
`result.update(\x7b"q": q\x7d)` only when `if q:` — Python truthiness. -/
def get_items_optional (q : Option String) : ItemsOptionalResult :=
  let result : ItemsOptionalResult := { items := [⟨1⟩, ⟨2⟩], q := none }
  if pyTruthyStr q then { result with q := q } else result

/-! ## Nested dependencies and secure endpoints -/

/-- First-level dependency `verify_api_key`: raises 403 unless the key is
exactly `"abc"`; on success returns the key. -/
def verify_api_key (api_key : Option String) : Except HTTPError String :=
  match api_key with
  | some key => if key = "abc" then .ok key else .error ⟨403, "Invalid API Key"⟩
  | none => .error ⟨403, "Invalid API Key"⟩

/-- The value produced by `verify_admin_access`. -/
structure AdminInfo where
  is_admin : Bool
deriving DecidableEq, Repr

/-- Second-level dependency `verify_admin_access`, which depends on
`verify_api_key`. The boolean in the result records whether the admin
check's body actually ran: the framework resolves the prerequisite first and
an error there short-circuits, so the body runs only on success. -/
def verify_admin_access (api_key : Option String) : Except HTTPError AdminInfo × Bool :=
  match verify_api_key api_key with
  | .error e => (.error e, false)
  | .ok _ => (.ok ⟨true⟩, true)

/-- The `GET /secure-data/` success response. -/
structure SecureDataResult where
  message : String
  access_api_key : String
deriving DecidableEq, Repr

/-- Handler for `GET /secure-data/`: body runs only when `verify_api_key`
succeeds. -/
def get_secure_data (api_key : Option String) : Except HTTPError SecureDataResult :=
  match verify_api_key api_key with
  | .error e => .error e
  | .ok key => .ok ⟨"This is secure data", key⟩

/-- The `GET /admin/` success response. -/
structure AdminDataResult where
  message : String
  admin_access : AdminInfo
deriving DecidableEq, Repr

/-- Handler for `GET /admin/`: body runs only when `verify_admin_access`
succeeds; the boolean again records whether the admin check's body ran. -/
def get_admin_data (api_key : Option String) : Except HTTPError AdminDataResult × Bool :=
  match verify_admin_access api_key with
  | (.error e, invoked) => (.error e, invoked)
  | (.ok info, invoked) => (.ok ⟨"Hello admin", info⟩, invoked)

/-! ## Timing middleware -/

/-- An HTTP response as the middleware sees it: whatever status code and body
the wrapped pipeline produced (success or error), plus its headers. -/
structure Response where
  status_code : Nat
  body : String
  headers : List (String × String)
deriving DecidableEq, Repr

/-- Round `x * 10000` to the nearest integer, ties to even, computed directly
on the numerator and denominator (the rounding Python's fixed-point float
formatting performs for four decimal places). -/
def roundHalfEven4 (x : ℚ) : Int :=
  let scaled : Int := x.num * 10000
  let d : Int := (x.den : Int)
  let f : Int := Int.fdiv scaled d
  let r : Int := scaled - f * d
  if 2 * r < d then f
  else if d < 2 * r then f + 1
  else if f % 2 = 0 then f else f + 1

/-- Left-pad a numeral string with zeros to four characters. -/
def pad4 (n : Nat) : String :=
  let s := toString n
  String.mk (List.replicate (4 - s.length) '0') ++ s

/-- Python `f"\x7bx:.4f\x7d"` for a nonnegative duration: the value rounded
to four decimal places, with exactly four digits after the point. -/
def format4 (x : ℚ) : String :=
  let n := (roundHalfEven4 x).toNat
  toString (n / 10000) ++ "." ++ pad4 (n % 10000)

/-- The `add_process_time_header` middleware: given the clock readings taken
before and after the wrapped pipeline ran and the response the pipeline
produced, set the `X-Process-Time` header to the formatted elapsed time and
return the response otherwise untouched. -/
def add_process_time_header (start_time end_time : ℚ) (response : Response) : Response :=
  let process_time := end_time - start_time
  { response with
      headers := dictInsert response.headers "X-Process-Time" (format4 process_time) }

/-! ## Reachable store states -/

/-- Store states reachable from the empty `items_db` by the handlers that
receive the store: `create_item` is the only one whose body assigns to it. -/
inductive Reachable : Store → Prop
  | empty : Reachable []
  | create (it : Item) {db : Store} : Reachable db → Reachable (create_item it db).2
  | update (item_id : Int) (it : Item) (q : Option String) {db : Store} :
      Reachable db → Reachable (update_item item_id it q db).2
  | delete (item_id : Int) {db : Store} :
      Reachable db → Reachable (delete_item item_id db).2
  | get (item_id : Int) {db : Store} :
      Reachable db → Reachable (get_item item_id db).2

/-- The contiguous id range `1, 2, ..., n` as integers (what the keys of a
store of size `n` must be). -/
def idRange (n : Nat) : List Int :=
  (List.range n).map (fun i => (i : Int) + 1)

/-! ## Concrete sample data (used by witnesses and counterexamples) -/

/-- A valid stored item. -/
def itemMouse : Item :=
  ⟨"Wireless Mouse", none, 10, none, none, []⟩

/-- A second valid item, different from `itemMouse`. -/
def itemKeyboard : Item :=
  ⟨"Gaming Keyboard", some "mechanical", 49, some 2, some "code-123", ["periph"]⟩

/-- A raw request body that satisfies every declared constraint. -/
def rawGood : RawItem :=
  { name := "gaming keyboard", description := some "mechanical",
    price := 49, tax := some 2, code := some "code-123", tags := ["periph"] }

/-- A raw body whose 51-character name contains "admin": the length
constraint fails, so the custom validator never runs. -/
def rawLongAdmin : RawItem :=
  { name := String.mk (List.replicate 46 'x') ++ "admin", price := 1 }

/-- A raw body with an in-range name containing "ADMIN" and an invalid
price. -/
def rawAdminBadPrice : RawItem :=
  { name := "superADMINuser", price := 0 }

/-- A response such as the wrapped pipeline would produce for a not-found
error, used to exercise the middleware on an error response. -/
def respNotFound : Response :=
  ⟨404, "Item not found", [("content-type", "application/json")]⟩

/-! ## Dict lemmas -/

theorem dictLookup_insert_self {κ α : Type} [DecidableEq κ]
    (d : List (κ × α)) (k : κ) (v : α) :
    dictLookup (dictInsert d k v) k = some v := by
  induction d with
  | nil => simp [dictInsert, dictLookup]
  | cons p rest ih =>
    obtain ⟨k', v'⟩ := p
    by_cases hk : k' = k
    · subst hk; simp [dictInsert, dictLookup]
    · simp [dictInsert, dictLookup, hk, ih]

theorem dictLookup_insert_ne {κ α : Type} [DecidableEq κ]
    (d : List (κ × α)) (k k' : κ) (v : α) (h : k' ≠ k) :
    dictLookup (dictInsert d k v) k' = dictLookup d k' := by
  induction d with
  | nil => simp [dictInsert, dictLookup, Ne.symm h]
  | cons p rest ih =>
    obtain ⟨a, b⟩ := p
    by_cases ha : a = k
    · subst ha
      simp [dictInsert, dictLookup, Ne.symm h]
    · simp only [dictInsert, if_neg ha, dictLookup]
      by_cases ha' : a = k'
      · simp [ha']
      · simp [ha', ih]

theorem dictInsert_fresh {κ α : Type} [DecidableEq κ]
    (d : List (κ × α)) (k : κ) (v : α) (h : ∀ p ∈ d, p.1 ≠ k) :
    dictInsert d k v = d ++ [(k, v)] := by
  induction d with
  | nil => simp [dictInsert]
  | cons p rest ih =>
    obtain ⟨a, b⟩ := p
    have ha : a ≠ k := h (a, b) (by simp)
    simp only [dictInsert, if_neg ha, List.cons_append, List.cons.injEq, true_and]
    exact ih fun p hp => h p (by simp [hp])

/-! ## Store-contents lemmas -/

theorem dictLookup_extStore (items : List Item) : ∀ (m j : Nat),
    dictLookup (extStore m items) ((m : Int) + (j : Int) + 1) = items[j]? := by
  induction items with
  | nil => intro m j; simp [extStore, dictLookup]
  | cons it rest ih =>
    intro m j
    cases j with
    | zero => simp [extStore, dictLookup]
    | succ j' =>
      have hne : ((m : Int) + 1) ≠ (((m + 1 : Nat) : Int) + (j' : Int) + 1) := by
        push_cast; omega
      have hkey : ((m : Int) + ((j' + 1 : Nat) : Int) + 1)
          = (((m + 1 : Nat) : Int) + (j' : Int) + 1) := by
        push_cast; ring
      rw [hkey]
      simp only [extStore, dictLookup, if_neg hne, ih (m + 1) j',
        List.getElem?_cons_succ]

theorem dictLookup_extStore_none (items : List Item) : ∀ (m : Nat) (k : Int),
    (k ≤ (m : Int) ∨ (m : Int) + items.length < k) →
    dictLookup (extStore m items) k = none := by
  induction items with
  | nil => intro m k _; simp [extStore, dictLookup]
  | cons it rest ih =>
    intro m k hk
    have hne : ((m : Int) + 1) ≠ k := by
      rcases hk with h | h
      · omega
      · simp only [List.length_cons] at h; push_cast at h; omega
    have hrec : k ≤ ((m + 1 : Nat) : Int) ∨ ((m + 1 : Nat) : Int) + rest.length < k := by
      rcases hk with h | h
      · left; push_cast; omega
      · right; simp only [List.length_cons] at h; push_cast at h ⊢; omega
    simp only [extStore, dictLookup, if_neg hne, ih (m + 1) k hrec]

theorem recsFrom_getElem (items : List Item) : ∀ (m j : Nat),
    (recsFrom m items)[j]? =
      (items[j]?).map (fun it => mkRecord ((m : Int) + (j : Int) + 1) it) := by
  induction items with
  | nil => intro m j; simp [recsFrom]
  | cons it rest ih =>
    intro m j
    cases j with
    | zero => simp [recsFrom]
    | succ j' =>
      have hkey : ((m : Int) + ((j' + 1 : Nat) : Int) + 1)
          = (((m + 1 : Nat) : Int) + (j' : Int) + 1) := by
        push_cast; ring
      rw [hkey]
      simp only [recsFrom, List.getElem?_cons_succ, ih (m + 1) j']

theorem createSeq_eq (items : List Item) : ∀ db : Store,
    (∀ p ∈ db, 1 ≤ p.1 ∧ p.1 ≤ (db.length : Int)) →
    createSeq items db = (recsFrom db.length items, db ++ extStore db.length items) := by
  induction items with
  | nil => intro db _; simp [createSeq, recsFrom, extStore]
  | cons it rest ih =>
    intro db h
    have hfresh : ∀ p ∈ db, p.1 ≠ (db.length : Int) + 1 := by
      intro p hp
      have := h p hp
      omega
    have hins : dictInsert db ((db.length : Int) + 1) it
        = db ++ [((db.length : Int) + 1, it)] :=
      dictInsert_fresh db _ it hfresh
    have hinv : ∀ p ∈ db ++ [((db.length : Int) + 1, it)],
        1 ≤ p.1 ∧ p.1 ≤ ((db ++ [((db.length : Int) + 1, it)]).length : Int) := by
      intro p hp
      rcases List.mem_append.mp hp with hp' | hp'
      · have := h p hp'
        simp only [List.length_append, List.length_singleton]
        push_cast
        omega
      · have hp2 : p = ((db.length : Int) + 1, it) := by simpa using hp'
        subst hp2
        simp only [List.length_append, List.length_singleton]
        push_cast
        omega
    have hrec := ih (db ++ [((db.length : Int) + 1, it)]) hinv
    have hlen : (db ++ [((db.length : Int) + 1, it)]).length = db.length + 1 := by simp
    rw [hlen] at hrec
    simp only [createSeq, create_item, Store.size, hins, hrec, recsFrom, extStore,
      List.append_assoc, List.singleton_append]

/-! ## Validation lemmas -/

theorem nameErrors_nil (v : String) (h1 : 3 ≤ v.length) (h2 : v.length ≤ 50)
    (h3 : containsAdmin v = false) : nameErrors v = [] := by
  unfold nameErrors
  rw [if_neg (by omega), if_neg (by omega), if_neg (by simp [h3])]

theorem nameErrors_admin (v : String) (h1 : 3 ≤ v.length) (h2 : v.length ≤ 50)
    (h3 : containsAdmin v = true) : nameErrors v = [.nameContainsAdmin] := by
  unfold nameErrors
  rw [if_neg (by omega), if_neg (by omega), if_pos (by simp [h3])]

theorem descriptionErrors_nil (o : Option String)
    (h : ∀ d, o = some d → d.length ≤ 300) : descriptionErrors o = [] := by
  cases o with
  | none => rfl
  | some d =>
    have hd := h d rfl
    show (if 300 < d.length then [FieldError.descriptionTooLong] else []) = []
    rw [if_neg (by omega)]

theorem priceErrors_nil (p : ℚ) (h1 : 0 < p) (h2 : p ≤ 100000) : priceErrors p = [] := by
  unfold priceErrors
  rw [if_neg (not_le.mpr h1), if_neg (not_lt.mpr h2)]

theorem taxErrors_nil (o : Option ℚ) (h : ∀ t, o = some t → 0 < t) : taxErrors o = [] := by
  cases o with
  | none => rfl
  | some t =>
    have := h t rfl
    simp only [taxErrors, if_neg (not_le.mpr this)]

theorem codeErrors_nil (o : Option String)
    (h : ∀ c, o = some c → matchesCodePattern c = true) : codeErrors o = [] := by
  cases o with
  | none => rfl
  | some c => simp only [codeErrors, if_pos (h c rfl)]

theorem tagsErrors_nil (ts : List String) (h : ts.length ≤ 5) : tagsErrors ts = [] := by
  unfold tagsErrors
  rw [if_neg (by omega)]

/-! ## Claims -/

/-- C2: for every combination of field values satisfying all declared
constraints — name length 3 to 50 without the substring "admin"
case-insensitively, description length at most 300 or absent, price
strictly positive and at most 100000, tax strictly positive or absent,
code matching the `code-` three-digit pattern or absent, at most 5 tags —
constructing an `Item` succeeds, the constructed name is the input name
title-cased, and every other field equals the input. -/
theorem validateItem_ok (r : RawItem)
    (h1 : 3 ≤ r.name.length) (h2 : r.name.length ≤ 50)
    (h3 : containsAdmin r.name = false)
    (h4 : ∀ d, r.description = some d → d.length ≤ 300)
    (h5 : 0 < r.price) (h6 : r.price ≤ 100000)
    (h7 : ∀ t, r.tax = some t → 0 < t)
    (h8 : ∀ c, r.code = some c → matchesCodePattern c = true)
    (h9 : r.tags.length ≤ 5) :
    validateItem r =
      .ok ⟨pyTitle r.name, r.description, r.price, r.tax, r.code, r.tags⟩ := by
  unfold validateItem otherFieldErrors
  rw [nameErrors_nil r.name h1 h2 h3, descriptionErrors_nil r.description h4,
    priceErrors_nil r.price h5 h6, taxErrors_nil r.tax h7,
    codeErrors_nil r.code h8, tagsErrors_nil r.tags h9]
  rfl

/-- Witness for C2 at a concrete request body exercising every optional
field: validation succeeds and title-cases the name. -/
theorem validateItem_ok_witness : validateItem rawGood = .ok itemKeyboard :=
  validateItem_ok rawGood (by decide) (by decide) (by decide)
    (by intro d hd; injection hd with h; subst h; decide)
    (by decide) (by decide)
    (by intro t ht; injection ht with h; subst h; decide)
    (by intro c hc; injection hc with h; subst h; decide)
    (by decide)

/-- C3 counterexample: a 51-character name containing "admin" is rejected by
the `max_length` constraint, so the custom validator never runs and the
semantic name error is absent — construction does not fail with the
semantic name-validation error as the claim states. -/
theorem admin_name_counterexample :
    containsAdmin rawLongAdmin.name = true ∧
    validateItem rawLongAdmin = .error [.nameTooLong] ∧
    FieldError.nameContainsAdmin ∉ [FieldError.nameTooLong] := by
  refine ⟨by decide, rfl, by decide⟩

/-- C3 (amended): for every name of structurally valid length (3 to 50
characters) containing "admin" in any letter case, construction fails, the
reported errors are exactly the semantic name error followed by the errors
of independently invalid other fields, and no `Item` is ever produced (so
the title-case normalization is never applied to the rejected input). -/
theorem validateItem_admin (r : RawItem)
    (h1 : 3 ≤ r.name.length) (h2 : r.name.length ≤ 50)
    (h3 : containsAdmin r.name = true) :
    validateItem r = .error (.nameContainsAdmin :: otherFieldErrors r) ∧
    ∀ it : Item, validateItem r ≠ .ok it := by
  have herr : validateItem r = .error (.nameContainsAdmin :: otherFieldErrors r) := by
    unfold validateItem
    rw [nameErrors_admin r.name h1 h2 h3]
    rfl
  exact ⟨herr, fun it h => by rw [herr] at h; exact Except.noConfusion h⟩

/-- Witness for C3 at a concrete body whose name contains "ADMIN" and whose
price is independently invalid: exactly the semantic name error plus the
price error are reported, and no `Item` results. -/
theorem validateItem_admin_witness :
    validateItem rawAdminBadPrice = .error [.nameContainsAdmin, .priceNotPositive] ∧
    validateItem rawAdminBadPrice ≠ .ok itemMouse :=
  ⟨(validateItem_admin rawAdminBadPrice (by decide) (by decide) (by decide)).1,
   (validateItem_admin rawAdminBadPrice (by decide) (by decide) (by decide)).2 itemMouse⟩

/-- C1 counterexample: with an item stored at id 1, `PUT /items/1` with a
different valid item leaves the stored record unchanged — the update
operation does not replace the record at the id, contrary to the claim. -/
theorem update_keeps_store_counterexample :
    dictLookup (update_item 1 itemKeyboard none [((1 : Int), itemMouse)]).2 1
      = some itemMouse ∧
    itemMouse ≠ itemKeyboard := by
  refine ⟨rfl, by decide⟩

/-- C1 (amended): the update operation never modifies the store — whether or
not the id exists — and returns a result describing the incoming validated
item's fields merged with the path id, plus the query parameter exactly
when it is truthy. -/
theorem update_item_spec (item_id : Int) (item : Item) (q : Option String) (db : Store) :
    update_item item_id item q db =
      (.ok ⟨mkRecord item_id item, if pyTruthyStr q then q else none⟩, db) :=
  rfl

/-- C7: for every integer id — present in the store or not — the delete
handler returns the fixed success message, never signals not-found (its
result is always `ok`), and returns the store mapping unchanged. -/
theorem delete_item_spec (item_id : Int) (db : Store) :
    delete_item item_id db =
      (.ok ⟨"Item " ++ toString item_id ++ " deleted successfully"⟩, db) :=
  rfl

/-- C8 counterexample: with `q` present but equal to the empty string, the
response of `GET /items-optional` carries no `q` key, so the key is not
present exactly when `q` is present. -/
theorem items_optional_counterexample :
    (get_items_optional (some "")).q = none ∧ (some "" : Option String) ≠ none := by
  refine ⟨rfl, by decide⟩

/-- C8 (amended): every `GET /items-optional` response carries the fixed
two-item list, and echoes `q` under the `q` key exactly when `q` is present
and non-empty (Python truthiness); otherwise the key is absent. -/
theorem items_optional_spec (q : Option String) :
    (get_items_optional q).items = [⟨1⟩, ⟨2⟩] ∧
    (get_items_optional q).q =
      (match q with
       | none => none
       | some s => if s = "" then none else some s) := by
  cases q with
  | none => exact ⟨rfl, rfl⟩
  | some s =>
    by_cases hs : s = ""
    · subst hs; exact ⟨rfl, rfl⟩
    · have hne : s.isEmpty = false := by
        rcases hempty : s.isEmpty with _ | _
        · rfl
        · exact absurd ((String.isEmpty_iff s).mp hempty) hs
      constructor
      · simp [get_items_optional, pyTruthyStr, hne]
      · simp [get_items_optional, pyTruthyStr, hne, hs]

theorem get_item_store (item_id : Int) (db : Store) : (get_item item_id db).2 = db := by
  unfold get_item
  cases dictLookup db item_id <;> rfl

/-- C4: starting from the empty store, creating items sequentially assigns
each the id current-store-size-plus-one, the j-th creation (0-based) returns
a record with id j+1 carrying exactly the supplied item's fields, and
afterwards `GET /items/\x7bj+1\x7d` returns exactly the item supplied at
that creation, leaving the store unchanged. -/
theorem create_sequential (items : List Item) (j : Nat) (it : Item)
    (h : items[j]? = some it) :
    (∀ (it' : Item) (db : Store),
      (create_item it' db).1.item_id = (Store.size db : Int) + 1) ∧
    ((createSeq items []).1)[j]? = some (mkRecord ((j : Int) + 1) it) ∧
    get_item ((j : Int) + 1) (createSeq items []).2 =
      (.ok (mkRecord ((j : Int) + 1) it), (createSeq items []).2) := by
  have hmain := createSeq_eq items [] (by simp)
  have hstore : (createSeq items []).2 = extStore 0 items := by rw [hmain]; simp
  have hrecs : (createSeq items []).1 = recsFrom 0 items := by rw [hmain]; simp
  refine ⟨fun _ _ => rfl, ?_, ?_⟩
  · rw [hrecs, recsFrom_getElem items 0 j, h]
    simp
  · rw [hstore]
    have hl := dictLookup_extStore items 0 j
    rw [show (((0 : Nat) : Int) + (j : Int) + 1) = ((j : Int) + 1) by push_cast; ring] at hl
    rw [h] at hl
    simp [get_item, hl]

/-- Witness for C4: creating two concrete items yields id 2 for the second,
and `GET /items/2` returns exactly that item. -/
theorem create_sequential_witness :
    ((createSeq [itemMouse, itemKeyboard] []).1)[1]? = some (mkRecord 2 itemKeyboard) ∧
    get_item 2 (createSeq [itemMouse, itemKeyboard] []).2 =
      (.ok (mkRecord 2 itemKeyboard), (createSeq [itemMouse, itemKeyboard] []).2) := by
  have h := create_sequential [itemMouse, itemKeyboard] 1 itemKeyboard rfl
  exact ⟨h.2.1, h.2.2⟩

/-- C5: after any sequence of creations from the empty store, `GET` on an id
never assigned (outside 1..N) yields a 404 error with detail "Item not
found" and returns the store unchanged. -/
theorem get_never_created (items : List Item) (k : Int)
    (h : k < 1 ∨ (items.length : Int) < k) :
    get_item k (createSeq items []).2 =
      (.error ⟨404, "Item not found"⟩, (createSeq items []).2) := by
  have hmain := createSeq_eq items [] (by simp)
  have hstore : (createSeq items []).2 = extStore 0 items := by rw [hmain]; simp
  have hnone := dictLookup_extStore_none items 0 k (by push_cast; omega)
  rw [hstore]
  simp [get_item, hnone]

/-- Witness for C5: with one item created, `GET /items/2` is a 404. -/
theorem get_never_created_witness :
    get_item 2 (createSeq [itemMouse] []).2 =
      (.error ⟨404, "Item not found"⟩, (createSeq [itemMouse] []).2) :=
  get_never_created [itemMouse] 2 (Or.inr (by norm_num))

/-- C6: with API key "abc" both `/secure-data` and `/admin` succeed; with
any other key, or no key, both return the 403 "Invalid API Key" error and
the admin-specific check body is never invoked (the recorded invocation
flag is `false`). -/
theorem secure_endpoints_spec :
    get_secure_data (some "abc") = .ok ⟨"This is secure data", "abc"⟩ ∧
    get_admin_data (some "abc") = (.ok ⟨"Hello admin", ⟨true⟩⟩, true) ∧
    ∀ api_key : Option String, api_key ≠ some "abc" →
      get_secure_data api_key = .error ⟨403, "Invalid API Key"⟩ ∧
      get_admin_data api_key = (.error ⟨403, "Invalid API Key"⟩, false) := by
  refine ⟨rfl, rfl, ?_⟩
  intro api_key hk
  cases api_key with
  | none => exact ⟨rfl, rfl⟩
  | some s =>
    have hs : s ≠ "abc" := fun h => hk (by rw [h])
    constructor
    · simp [get_secure_data, verify_api_key, hs]
    · simp [get_admin_data, verify_admin_access, verify_api_key, hs]

/-- Witness for C6: a wrong key is rejected on `/secure-data`, and a missing
key is rejected on `/admin` without the admin check running. -/
theorem secure_endpoints_witness :
    get_secure_data (some "wrong") = .error ⟨403, "Invalid API Key"⟩ ∧
    get_admin_data none = (.error ⟨403, "Invalid API Key"⟩, false) :=
  ⟨(secure_endpoints_spec.2.2 (some "wrong") (by decide)).1,
   (secure_endpoints_spec.2.2 none (by decide)).2⟩

/-- C9: for every pair of clock readings and every response produced by the
wrapped pipeline — success or error alike, since the middleware never
inspects the status — the middleware leaves the status code, the body and
every other header unchanged and sets `X-Process-Time` to the elapsed
seconds formatted to four decimal places. -/
theorem add_process_time_header_spec (s e : ℚ) (resp : Response) :
    (add_process_time_header s e resp).status_code = resp.status_code ∧
    (add_process_time_header s e resp).body = resp.body ∧
    dictLookup (add_process_time_header s e resp).headers "X-Process-Time"
      = some (format4 (e - s)) ∧
    ∀ k : String, k ≠ "X-Process-Time" →
      dictLookup (add_process_time_header s e resp).headers k
        = dictLookup resp.headers k := by
  refine ⟨rfl, rfl, ?_, ?_⟩
  · exact dictLookup_insert_self resp.headers _ _
  · intro k hk
    exact dictLookup_insert_ne resp.headers _ k _ hk

/-- Witness for C9 on a concrete 404 error response: the status, body and
existing header survive and the timing header carries the formatted
duration. -/
theorem add_process_time_header_witness :
    (add_process_time_header 0 1 respNotFound).status_code = 404 ∧
    (add_process_time_header 0 1 respNotFound).body = "Item not found" ∧
    dictLookup (add_process_time_header 0 1 respNotFound).headers "X-Process-Time"
      = some "1.0000" ∧
    dictLookup (add_process_time_header 0 1 respNotFound).headers "content-type"
      = some "application/json" := by
  have h := add_process_time_header_spec 0 1 respNotFound
  refine ⟨h.1, h.2.1, ?_, ?_⟩
  · have h3 := h.2.2.1
    rw [show (1 : ℚ) - 0 = 1 by norm_num] at h3
    exact h3
  · exact h.2.2.2 "content-type" (by decide)

theorem idRange_succ (n : Nat) : idRange (n + 1) = idRange n ++ [(n : Int) + 1] := by
  simp [idRange, List.range_succ]

theorem mem_idRange_bounds (n : Nat) : ∀ k ∈ idRange n, 1 ≤ k ∧ k ≤ (n : Int) := by
  induction n with
  | zero => intro k hk; simp [idRange] at hk
  | succ m ih =>
    intro k hk
    rw [idRange_succ] at hk
    rcases List.mem_append.mp hk with hmem | hmem
    · have := ih k hmem
      constructor
      · omega
      · push_cast; omega
    · have hk2 : k = (m : Int) + 1 := by simpa using hmem
      subst hk2
      constructor
      · omega
      · push_cast; omega

/-- C10: every store state reachable from the empty store through the
handlers has as its keys, in insertion order, exactly the contiguous range
1..size — only `create_item` mutates the store and it inserts at key
size + 1, while update, delete and get pass it through. -/
theorem reachable_keys (db : Store) (h : Reachable db) :
    db.map Prod.fst = idRange db.length := by
  induction h with
  | empty => rfl
  | @create it db hdb ih =>
    have hfresh : ∀ p ∈ db, p.1 ≠ (db.length : Int) + 1 := by
      intro p hp
      have hmem : p.1 ∈ db.map Prod.fst := List.mem_map_of_mem _ hp
      rw [ih] at hmem
      have := mem_idRange_bounds db.length p.1 hmem
      omega
    have h2 : (create_item it db).2 = db ++ [((db.length : Int) + 1, it)] := by
      show dictInsert db ((Store.size db : Int) + 1) it = _
      exact dictInsert_fresh db _ it hfresh
    rw [h2, List.map_append, ih]
    simp [idRange_succ]
  | @update item_id it q db hdb ih => exact ih
  | @delete item_id db hdb ih => exact ih
  | @get item_id db hdb ih =>
    rw [get_item_store item_id db]
    exact ih

/-- Witness for C10 at the store reached by one creation: its key list is
exactly the range 1..1. -/
theorem reachable_keys_witness :
    ((create_item itemMouse []).2).map Prod.fst =
      idRange ((create_item itemMouse []).2).length :=
  reachable_keys _ (Reachable.create itemMouse Reachable.empty)

end FastapiLearn
